import Mathlib

/-!
Shallow embedding of `empower/agent/lvnf.py` (the EmPOWER Agent LVNF
lifecycle supervisor) and proofs about it.

The external collaborators (the loopback control channel, the bridge
management commands, the OS statistics files, the child process) are
modelled as explicit oracle functions or as entries in an action trace;
the pure computations (script generation, interface naming, line
splitting, the write loop) are translated directly from the source.
-/

namespace LVNF

/-! ## Control Channel Client -/

/-- Embedding of `LVNF.write_handler` in the case where `value` is a list
(`lvnf.py` lines 95-102).  The oracle `w` stands for one call to the
low-level `write_handler("127.0.0.1", self.ctrl, handler, entry)`; it
returns the `(status, message)` pair for that entry.  The result is the
list of entries actually sent (in order) together with the returned pair;
`none` models the fact that on an empty list the final
`return (ret[0], ret[1])` references the loop variable `ret` that was
never bound, so no pair is returned (a `NameError` is raised). -/
def write_handler_list {α : Type} (w : α → Nat × String) :
    List α → List α × Option (Nat × String)
  | [] => ([], none)
  | x :: xs =>
      let r := w x
      if r.1 ≠ 200 then ([x], some r)
      else
        let p := write_handler_list w xs
        (x :: p.1, some (p.2.getD r))

/-- Embedding of Python's `str.split("\n")` on the character list of the
body: cuts at every newline, keeping empty segments (`"".split("\n")` is
`[""]`). -/
def pySplitNl : List Char → List (List Char)
  | [] => [[]]
  | c :: cs =>
      match pySplitNl cs with
      | [] => [[]]
      | l :: ls => if c = '\n' then [] :: l :: ls else (c :: l) :: ls

/-- Embedding of Python's `str.strip()`: drop leading and trailing
whitespace characters. -/
def pyStrip (s : List Char) : List Char :=
  ((s.dropWhile Char.isWhitespace).reverse.dropWhile Char.isWhitespace).reverse

/-- The list comprehension of `read_handler`
(`[x.strip() for x in value[1].split("\n") if x and x != ""]`,
`lvnf.py` line 87): split on newlines, drop lines that are empty
*before* stripping (`if x and x != ""` tests the raw line), strip the
survivors. -/
def read_lines (body : String) : List String :=
  ((pySplitNl body.data).filter (fun x => x != [])).map (fun x => String.mk (pyStrip x))

/-- The spec's wording of the success case of `read_handler`: "the
response body split on newlines with each line stripped and empty lines
removed" / "split into non-empty trimmed lines" — i.e. stripping happens
before empty lines are dropped, so a whitespace-only line disappears
entirely and every returned line is non-empty. -/
def read_lines_spec_words (body : String) : List String :=
  ((pySplitNl body.data).map (fun x => String.mk (pyStrip x))).filter (fun x => x != "")

/-- Embedding of `LVNF.read_handler` (`lvnf.py` lines 81-90).  The
argument `resp` is the raw `(status, body)` pair produced by the
low-level `read_handler("127.0.0.1", self.ctrl, handler)`.  On status 200
it returns `(200, read_lines body)`; otherwise the raw pair is passed
through unchanged. -/
def read_handler (resp : Nat × String) : Nat × (List String ⊕ String) :=
  if resp.1 = 200 then
    (200, Sum.inl (read_lines resp.2))
  else
    (resp.1, Sum.inr resp.2)

/-- `read_handler` as the spec words it: on 200 the lines are stripped
first and empty lines then removed. -/
def read_handler_spec_words (resp : Nat × String) : Nat × (List String ⊕ String) :=
  if resp.1 = 200 then
    (200, Sum.inl (read_lines_spec_words resp.2))
  else
    (resp.1, Sum.inr resp.2)

/-! ## Script Builder and port table (`LVNF.__init__`, lines 48-79) -/

/-- The read-only image descriptor (`LVNFImage`), as consumed by
`lvnf.py`: number of ports, the VNF body, the logical-name → handler-path
mapping, and the list of stateful handler names. -/
structure Image where
  nb_ports : Nat
  vnf : String
  handlers : String → String
  state_handlers : List String

/-- Embedding of `self.ctrl = agent.listen + self.vnf_seq`
(`lvnf.py` line 56).  Assigned once in `__init__` and only ever read
afterwards (`read_handler`, `write_handler`, `to_dict`), never
recomputed. -/
def ctrlPort (listen vnf_seq : Nat) : Nat := listen + vnf_seq

/-- Embedding of `iface = "vnf-%s-%u-%u" % (self.bridge, seq, i)`
(`lvnf.py` line 67). -/
def ifaceName (bridge : String) (seq i : Nat) : String :=
  "vnf-" ++ bridge ++ "-" ++ toString seq ++ "-" ++ toString i

/-- One port record (`lvnf.py` lines 69-72). -/
structure Port where
  iface : String
  hwaddr : Option String
  virtual_port_id : Nat
  ovs_port_id : Option Nat
  deriving DecidableEq

/-- The port table built by `__init__` (`lvnf.py` lines 64-72): index
`i ↦ {iface, hwaddr: None, virtual_port_id: i, ovs_port_id: None}` for
`i` in `range(image.nb_ports)`. -/
def initPorts (bridge : String) (seq n : Nat) : List (Nat × Port) :=
  (List.range n).map (fun i => (i, ⟨ifaceName bridge seq i, none, i, none⟩))

/-- The three boilerplate lines appended per port
(`lvnf.py` lines 74-76). -/
def portBlock (ctrl : Nat) (i : Nat) (iface : String) : String :=
  "ControlSocket(TCP, " ++ toString ctrl ++ ");\n" ++
  "in_" ++ toString i ++ " :: FromHost(" ++ iface ++ ");\n" ++
  "out_" ++ toString i ++ " :: ToHost(" ++ iface ++ ");\n"

/-- Embedding of the script construction in `__init__` (`lvnf.py` lines
57, 63-79): starting from the empty string, the loop appends the three
boilerplate lines for each port index, and finally the image body `vnf`
is appended verbatim. -/
def buildScript (image : Image) (bridge : String) (listen seq : Nat) : String :=
  ((List.range image.nb_ports).foldl
      (fun acc i => acc ++ portBlock (ctrlPort listen seq) i (ifaceName bridge seq i)) "")
    ++ image.vnf

/-- The spec's wording of the script builder: the concatenation, over
port indices in order, of the per-port block, followed by the image body
verbatim. -/
def scriptSpecWords (image : Image) (bridge : String) (listen seq : Nat) : String :=
  String.join ((List.range image.nb_ports).map
      (fun i => portBlock (ctrlPort listen seq) i (ifaceName bridge seq i)))
    ++ image.vnf

/-! ## Lifecycle actions (`init_lvnf`, `__set_context`, `stop`) -/

/-- One externally visible action performed by the lifecycle code.
`logExit rc errs` stands for the two `logging.info` calls that record the
exit code and the captured stderr; `replay h v` stands for one
`self.write_handler(handler_name, line)` call made while replaying
context; `deregister id` stands for `del self.agent.lvnfs[lvnf_id]`;
`detachPort b i` stands for one `ovs-vsctl del-port` attempt. -/
inductive Action where
  | logExit (rc : Int) (errs : String)
  | sendCaps (id : String)
  | replay (handlerPath : String) (line : String)
  | attachIfaces
  | startHeartbeat
  | deregister (id : String)
  | detachPort (bridge iface : String)
  deriving DecidableEq

/-- A saved context: ordered association of stateful-handler name to the
ordered list of configuration lines captured for it
(`self.context`). -/
abbrev Context := List (String × List String)

/-- Embedding of `LVNF.__set_context` (`lvnf.py` lines 109-117): for each
handler in the context, look up its handler path in `image.handlers` and
issue one write per stored line, in order.  (`if not context: return` is
the empty-context case, which here produces the empty action list.) -/
def set_context_actions (handlers : String → String) (ctx : Context) : List Action :=
  ctx.flatMap (fun e => e.2.map (fun line => Action.replay (handlers e.1) line))

/-- The outcome of the one-second startup probe
(`self.process.communicate(timeout=1)` in `init_lvnf`): either the call
times out because the process is still alive, or the process has exited
with a return code and captured stderr. -/
inductive ProbeResult where
  | timeout
  | exited (returncode : Int) (errs : String)

/-- Embedding of `LVNF.init_lvnf` (`lvnf.py` lines 119-158) as the trace
of actions it performs, by probe outcome.  On timeout (process alive):
replay the supplied context, attach the interfaces, send caps, start the
heartbeat thread.  On exit within the window: log the exit code and
stderr, send caps, and delete the instance from `self.agent.lvnfs`.
Nothing in either branch spawns a process again, so startup is never
retried. -/
def init_lvnf (id : String) (handlers : String → String) (ctx : Context) :
    ProbeResult → List Action
  | ProbeResult.timeout =>
      set_context_actions handlers ctx ++
        [Action.attachIfaces, Action.sendCaps id, Action.startHeartbeat]
  | ProbeResult.exited rc errs =>
      [Action.logExit rc errs, Action.sendCaps id, Action.deregister id]

/-- Embedding of the context-capture loop in `LVNF.stop` (`lvnf.py`
lines 225-229).  The oracle `read` gives, for a handler path, the
`(status, lines)` result of `self.read_handler` on that path.  Starting
from the fresh empty `self.context`, each stateful handler whose read
returns 200 is stored (in iteration order) with the lines read; the
others are skipped. -/
def capture_context (handlers : String → String) (state_handlers : List String)
    (read : String → Nat × List String) : Context :=
  state_handlers.foldl
    (fun acc h =>
      let ret := read (handlers h)
      if ret.1 = 200 then acc ++ [(h, ret.2)] else acc)
    []

/-! ## Virtual Port Manager (`add_ifaces`, `remove_ifaces`) -/

/-- Embedding of the port-table update done by `LVNF.add_ifaces`
(`lvnf.py` lines 234-260).  `agentPorts` is the agent's bridge-port
inventory (`self.agent.ports.values()`), as pairs `(iface, port_id)`;
`hw` is the `get_hw_addr` oracle.  For every port record the
bridge-assigned id is resolved by scanning the inventory for the first
entry with a matching interface name, and `hwaddr`/`ovs_port_id` are
filled in; the interface name and the virtual port id are untouched. -/
def add_ifaces_ports (agentPorts : List (String × Nat)) (hw : String → Option String)
    (ports : List (Nat × Port)) : List (Nat × Port) :=
  ports.map (fun p =>
    (p.1, { p.2 with
              hwaddr := hw p.2.iface,
              ovs_port_id := (agentPorts.find? (fun q => q.1 == p.2.iface)).map (fun q => q.2) }))

/-- Embedding of `LVNF.remove_ifaces` (`lvnf.py` lines 262-277): for each
port record one `del-port` attempt is made (failures are tolerated), and
afterwards `self.ports = {}` clears the whole table.  Returns the detach
actions and the new port table. -/
def remove_ifaces (agentBridge : String) (ports : List (Nat × Port)) :
    List Action × List (Nat × Port) :=
  (ports.map (fun p => Action.detachPort agentBridge p.2.iface), [])

/-! ## Stats Collector (`stats`) -/

/-- Left-to-right map over a list in the `Option` monad, aborting at the
first failure; this is the effect structure of a Python loop in which an
iteration may raise. -/
def optMapM {α β : Type} (f : α → Option β) : List α → Option (List β)
  | [] => some []
  | x :: xs =>
      match f x with
      | none => none
      | some y =>
          match optMapM f xs with
          | none => none
          | some ys => some (y :: ys)

/-- The four counter files read per interface (`lvnf.py` line 290). -/
def statsFields : List String := ["tx_packets", "rx_packets", "tx_bytes", "rx_bytes"]

/-- Reading the four counters for one interface: each read
(`open(...).read()` + `int(...)`) may fail, and a failure aborts the
whole per-interface loop. -/
def readPortStats (counter : String → String → Option Nat) (iface : String) :
    Option (List (String × Nat)) :=
  optMapM (fun f => (counter iface f).map (fun v => (f, v))) statsFields

/-- Embedding of `LVNF.stats` (`lvnf.py` lines 279-300).  The oracle
`counter iface field` is the content of
`/sys/class/net/<iface>/statistics/<field>` parsed as an integer, or
`none` when the open/read raises.  The outer loop runs over the current
port table; as in the source, a raised error propagates out and no
partial mapping is returned (`none`). -/
def stats (counter : String → String → Option Nat) (ports : List (Nat × Port)) :
    Option (List (String × List (String × Nat))) :=
  optMapM (fun p => (readPortStats counter p.2.iface).map (fun vals => (p.2.iface, vals))) ports

/-! ## Shared registry (`self.agent.lvnfs`) -/

/-- Embedding of `del self.agent.lvnfs[lvnf_id]` (`lvnf.py` lines 158
and 185): Python's `del d[k]` removes the entry when the key is present
and raises `KeyError` when it is not; `none` models the raise. -/
def registry_del (reg : List String) (id : String) : Option (List String) :=
  if id ∈ reg then some (reg.erase id) else none

/-! ## Trace projections and concrete oracles used in statements -/

/-- The `(handler path, line)` pairs of the write calls appearing in an
action trace, in order. -/
def replayWrites (acts : List Action) : List (String × String) :=
  acts.filterMap (fun a =>
    match a with
    | Action.replay h v => some (h, v)
    | _ => none)

/-- The `send_caps` status reports appearing in an action trace, in
order. -/
def capsReports (acts : List Action) : List Action :=
  acts.filter (fun a =>
    match a with
    | Action.sendCaps _ => true
    | _ => false)

/-- A concrete write oracle for evaluation: entry `"b"` is rejected with
status 500, everything else accepted with status 200. -/
def wEx : String → Nat × String :=
  fun s => if s = "b" then (500, "errb") else (200, "ok")

/-- A concrete counter oracle whose reads all succeed. -/
def counterGood : String → String → Option Nat := fun _ _ => some 5

/-- A concrete counter oracle for which reading `rx_bytes` raises. -/
def counterBad : String → String → Option Nat :=
  fun _ f => if f = "rx_bytes" then none else some 1

/-! ## Theorems -/

/-- Filtering after a map absorbs an earlier filter whose rejects are
also rejected afterwards. -/
lemma filter_map_filter {α β : Type} (p : α → Bool) (q : β → Bool) (f : α → β)
    (h : ∀ x, p x = false → q (f x) = false) :
    ∀ l : List α, ((l.filter p).map f).filter q = (l.map f).filter q := by
  intro l
  induction l with
  | nil => rfl
  | cons x xs ih =>
      cases hp : p x with
      | false => simp [List.filter_cons, hp, h x hp, ih]
      | true => simp [List.filter_cons, hp, ih]

/-- C10: calling `write_handler` with an empty list performs no sends
and produces no `(status, message)` pair — the trailing
`return (ret[0], ret[1])` refers to the never-bound loop variable `ret`
(a `NameError`), modelled by the `none` result. -/
theorem write_handler_empty_list {α : Type} (w : α → Nat × String) :
    write_handler_list w [] = ([], none) := rfl

/-- C6: the control-channel port is `agent.listen + vnf_seq`, computed
once in `__init__` and never recomputed, and instances with distinct
sequence numbers on the same node get distinct control ports. -/
theorem ctrl_port_unique (listen s1 s2 : Nat) (h : s1 ≠ s2) :
    ctrlPort listen s1 = listen + s1 ∧ ctrlPort listen s1 ≠ ctrlPort listen s2 :=
  ⟨rfl, fun hc => h (by simpa [ctrlPort] using hc)⟩

/-- Witness for `ctrl_port_unique` at `listen = 10000`, sequence numbers
3 and 4 (the spec's own example: control port 10003). -/
theorem ctrl_port_unique_witness :
    ctrlPort 10000 3 = 10000 + 3 ∧ ctrlPort 10000 3 ≠ ctrlPort 10000 4 :=
  ctrl_port_unique 10000 3 4 (by decide)

/-- C9: `del self.agent.lvnfs[lvnf_id]` deletes a present id, but on an
id that is already gone it raises `KeyError` (the `none` result) instead
of being a no-op — the second of two deletions of the same id crashes,
contrary to the claim. -/
theorem registry_del_raises_when_absent :
    registry_del ["i1"] "i1" = some [] ∧ registry_del [] "i1" = none := by
  constructor <;> rfl

/-- C4 counterexample: for a one-port instance (`bridge "br0"`, sequence
7), index 0 is mapped to interface `vnf-br0-7-0` at creation, but after
`remove_ifaces` (called by `stop`) the port table is cleared and no
interface name is associated with index 0 any more — the name is not
stable for the instance's lifetime. -/
theorem remove_ifaces_discards_iface :
    (initPorts "br0" 7 1).lookup 0 = some ⟨"vnf-br0-7-0", none, 0, none⟩ ∧
    ((remove_ifaces "br0" (initPorts "br0" 7 1)).2).lookup 0 = none := by
  decide

/-- C4 amended: the interface name of each virtual-port index is fixed
at creation (`vnf-<bridge>-<seq>-<i>`) and preserved by `add_ifaces`
(which only fills in `hwaddr` and `ovs_port_id`), but `remove_ifaces`
clears the entire port table, discarding the names. -/
theorem iface_names_stable_until_detach (bridge : String) (seq n : Nat)
    (agentPorts : List (String × Nat)) (hw : String → Option String)
    (agentBridge : String) (ports : List (Nat × Port)) :
    (initPorts bridge seq n).map (fun p => (p.1, p.2.iface))
        = (List.range n).map (fun i => (i, ifaceName bridge seq i)) ∧
    (add_ifaces_ports agentPorts hw ports).map (fun p => (p.1, p.2.iface))
        = ports.map (fun p => (p.1, p.2.iface)) ∧
    (remove_ifaces agentBridge ports).2 = [] := by
  refine ⟨?_, ?_, rfl⟩
  · simp [initPorts, List.map_map]
  · simp [add_ifaces_ports, List.map_map]

/-- C5 counterexample: on body `"a\n \nb"` the code returns the line
list `["a", "", "b"]` — the whitespace-only middle line survives the
raw-emptiness filter and is stripped to the empty string — whereas the
spec's "each line stripped and empty lines removed" gives `["a", "b"]`;
the result is not free of empty lines. -/
theorem read_handler_blank_line_counterexample :
    read_handler (200, "a\n \nb") = (200, Sum.inl ["a", "", "b"]) ∧
    read_handler_spec_words (200, "a\n \nb") = (200, Sum.inl ["a", "b"]) ∧
    read_handler (200, "a\n \nb") ≠ read_handler_spec_words (200, "a\n \nb") := by
  decide

/-- C5 amended: on status 200, `read_handler` returns the body split on
newlines with the raw-empty lines removed first and the surviving lines
then stripped (so whitespace-only lines contribute empty strings);
dropping those empty strings recovers exactly the spec's
strip-then-remove reading; for any other status the raw `(status,
message)` pair is returned unchanged. -/
theorem read_handler_spec (code : Nat) (body : String) :
    (code = 200 → read_handler (code, body) = (200, Sum.inl (read_lines body))) ∧
    (code ≠ 200 → read_handler (code, body) = (code, Sum.inr body)) ∧
    (read_lines body).filter (fun x => x != "") = read_lines_spec_words body := by
  refine ⟨fun h => by simp [read_handler, h], fun h => by simp [read_handler, h], ?_⟩
  unfold read_lines read_lines_spec_words
  exact filter_map_filter _ _ _ (fun x hx => by
    have : x = [] := by simpa using hx
    subst this
    rfl) _

/-- Witness for `read_handler_spec`: the 200 branch at body `"a\nb"` and
the passthrough branch at status 404. -/
theorem read_handler_spec_witness :
    read_handler (200, "a\nb") = (200, Sum.inl ["a", "b"]) ∧
    read_handler (404, "err") = (404, Sum.inr "err") := by
  constructor
  · rw [(read_handler_spec 200 "a\nb").1 rfl]
    decide
  · exact (read_handler_spec 404 "err").2.1 (by decide)

/-- C2: when the startup probe observes that the child exited within the
window, `init_lvnf` logs the exit code and captured stderr, reports
status exactly once, deletes the instance from `agent.lvnfs`, performs
no context replay, no interface attach and does not start the heartbeat
thread; no action in the trace re-spawns the process. -/
theorem init_lvnf_startup_failure (id : String) (handlers : String → String)
    (ctx : Context) (rc : Int) (errs : String) :
    capsReports (init_lvnf id handlers ctx (ProbeResult.exited rc errs))
        = [Action.sendCaps id] ∧
    Action.logExit rc errs ∈ init_lvnf id handlers ctx (ProbeResult.exited rc errs) ∧
    Action.deregister id ∈ init_lvnf id handlers ctx (ProbeResult.exited rc errs) ∧
    replayWrites (init_lvnf id handlers ctx (ProbeResult.exited rc errs)) = [] ∧
    Action.attachIfaces ∉ init_lvnf id handlers ctx (ProbeResult.exited rc errs) ∧
    Action.startHeartbeat ∉ init_lvnf id handlers ctx (ProbeResult.exited rc errs) := by
  refine ⟨rfl, ?_, ?_, rfl, ?_, ?_⟩ <;> simp [init_lvnf]

/-- Unfolding of the write loop on a non-empty list: the head is always
sent; on a non-200 response the loop stops there, otherwise it continues
with the tail, and the head's response is the result when the tail is
exhausted. -/
lemma write_handler_list_cons {α : Type} (w : α → Nat × String) (x : α) (xs : List α) :
    write_handler_list w (x :: xs) =
      if (w x).1 ≠ 200 then ([x], some (w x))
      else (x :: (write_handler_list w xs).1,
            some ((write_handler_list w xs).2.getD (w x))) := rfl

/-- If every entry is accepted with status 200, all entries are sent and
the last entry's response is returned. -/
lemma wl_all200 {α : Type} (w : α → Nat × String) :
    ∀ (l : List α) (h : l ≠ []), (∀ x ∈ l, (w x).1 = 200) →
      write_handler_list w l = (l, some (w (l.getLast h)))
  | [], h, _ => absurd rfl h
  | x :: xs, _, hall => by
      have hx : (w x).1 = 200 := hall x (List.mem_cons_self x xs)
      rw [write_handler_list_cons, if_neg (by simp [hx])]
      cases xs with
      | nil => simp [write_handler_list]
      | cons y ys =>
          have ih := wl_all200 w (y :: ys) (List.cons_ne_nil y ys)
            (fun z hz => hall z (List.mem_cons_of_mem x hz))
          rw [ih]
          simp [List.getLast_cons]

/-- If the entry at index `k` is the first one rejected, exactly the
entries up to and including index `k` are sent and its response is
returned. -/
lemma wl_firstfail {α : Type} (w : α → Nat × String) :
    ∀ (l : List α) (k : Nat) (hk : k < l.length),
      (∀ j (hj : j < l.length), j < k → (w (l.get ⟨j, hj⟩)).1 = 200) →
      (w (l.get ⟨k, hk⟩)).1 ≠ 200 →
      write_handler_list w l = (l.take (k + 1), some (w (l.get ⟨k, hk⟩)))
  | [], k, hk, _, _ => absurd hk (by simp)
  | x :: xs, 0, hk, _, hfail => by
      rw [write_handler_list_cons, if_pos (by simpa using hfail)]
      simp
  | x :: xs, k + 1, hk, hprev, hfail => by
      have hx : (w x).1 = 200 := hprev 0 (by simp) (Nat.succ_pos k)
      have ih := wl_firstfail w xs k (by simpa using hk)
        (fun j hj hjk => hprev (j + 1) (by simpa using hj) (by omega))
        (by simpa using hfail)
      rw [write_handler_list_cons, if_neg (by simp [hx]), ih]
      simp

/-- C1: for a non-empty list of values, `write_handler` sends the values
one at a time in order; if every item returns 200, all items are sent
and the last item's `(status, message)` is returned, and if item `k` is
the first to return non-200, only items `0..k` are sent (the first
component is the sent prefix) and item `k`'s pair is returned. -/
theorem write_handler_list_spec {α : Type} (w : α → Nat × String) (l : List α)
    (hne : l ≠ []) :
    ((∀ x ∈ l, (w x).1 = 200) →
        write_handler_list w l = (l, some (w (l.getLast hne)))) ∧
    (∀ k (hk : k < l.length),
        (∀ j (hj : j < l.length), j < k → (w (l.get ⟨j, hj⟩)).1 = 200) →
        (w (l.get ⟨k, hk⟩)).1 ≠ 200 →
        write_handler_list w l = (l.take (k + 1), some (w (l.get ⟨k, hk⟩)))) :=
  ⟨fun hall => wl_all200 w l hne hall,
   fun k hk hprev hfail => wl_firstfail w l k hk hprev hfail⟩

/-- Witness for `write_handler_list_spec`: with the oracle that rejects
`"b"` with status 500, `["a", "c"]` is sent in full returning the last
200 response, and on `["a", "b", "c"]` only `["a", "b"]` is sent and
`(500, "errb")` is returned — the spec's own example scenario 2. -/
theorem write_handler_list_spec_witness :
    write_handler_list wEx ["a", "c"] = (["a", "c"], some (200, "ok")) ∧
    write_handler_list wEx ["a", "b", "c"] = (["a", "b"], some (500, "errb")) := by
  constructor
  · exact ((write_handler_list_spec wEx ["a", "c"] (by decide)).1 (by decide)).trans
      (by decide)
  · exact ((write_handler_list_spec wEx ["a", "b", "c"] (by decide)).2 1 (by decide)
      (by decide) (by decide)).trans (by decide)

/-- `String.join` distributes over cons. -/
lemma join_cons (s : String) (l : List String) :
    String.join (s :: l) = s ++ String.join l := by
  simp [String.join_eq, String.ext_iff]

/-- A left fold that appends one block per element, starting from `s`,
is `s` followed by the join of the blocks. -/
lemma foldl_append_eq_join {α : Type} (f : α → String) :
    ∀ (l : List α) (s : String),
      l.foldl (fun acc i => acc ++ f i) s = s ++ String.join (l.map f)
  | [], s => (String.append_empty s).symm
  | x :: xs, s => by
      simp only [List.foldl_cons, List.map_cons]
      rw [foldl_append_eq_join f xs (s ++ f x), join_cons, String.append_assoc]

/-- C7: the script built by `__init__` is, byte for byte, the
concatenation over port indices `i` in `[0, nb_ports)` of the per-port
block — a `ControlSocket` declaration bound to the control port, a
`FromHost` inbound adapter and a `ToHost` outbound adapter on interface
`vnf-<bridge>-<seq>-<i>` — followed by the image's body verbatim.  Both
sides are pure functions of the image, bridge name, base listen port and
sequence number, so equal inputs yield byte-identical script text. -/
theorem buildScript_spec (image : Image) (bridge : String) (listen seq : Nat) :
    buildScript image bridge listen seq = scriptSpecWords image bridge listen seq := by
  unfold buildScript scriptSpecWords
  rw [foldl_append_eq_join
      (fun i => portBlock (ctrlPort listen seq) i (ifaceName bridge seq i))
      (List.range image.nb_ports) "", String.empty_append]

/-- A left fold that appends a per-element chunk to the accumulator is
the accumulator followed by the flattened chunks. -/
lemma foldl_append_gen {α β : Type} (g : β → List α) :
    ∀ (l : List β) (acc : List α),
      l.foldl (fun a x => a ++ g x) acc = acc ++ l.flatMap g
  | [], acc => by simp
  | x :: t, acc => by
      simp only [List.foldl_cons, List.flatMap_cons]
      rw [foldl_append_gen g t (acc ++ g x), List.append_assoc]

/-- Flat-mapping an element to a singleton or nothing is filtering then
mapping. -/
lemma flatMap_if_singleton {α β : Type} (c : α → Bool) (v : α → β) :
    ∀ l : List α,
      l.flatMap (fun x => if c x then [v x] else []) = (l.filter c).map v
  | [] => rfl
  | x :: t => by
      cases hc : c x <;>
        simp [List.flatMap_cons, List.filter_cons, hc, flatMap_if_singleton c v t]

/-- `capture_context` keeps, in iteration order, exactly the stateful
handlers whose read returned 200, paired with the lines read. -/
lemma capture_context_eq (handlers : String → String) (sh : List String)
    (read : String → Nat × List String) :
    capture_context handlers sh read
      = (sh.filter (fun h => (read (handlers h)).1 == 200)).map
          (fun h => (h, (read (handlers h)).2)) := by
  unfold capture_context
  have hstep : (fun (acc : Context) h =>
        let ret := read (handlers h)
        if ret.1 = 200 then acc ++ [(h, ret.2)] else acc)
      = fun acc h => acc ++
          (if (read (handlers h)).1 == 200 then [(h, (read (handlers h)).2)] else []) := by
    funext acc h
    by_cases hc : (read (handlers h)).1 = 200 <;> simp [hc]
  rw [hstep, foldl_append_gen, List.nil_append,
    flatMap_if_singleton (fun h => (read (handlers h)).1 == 200)
      (fun h => (h, (read (handlers h)).2))]

/-- Projecting the replay actions out of the per-line write calls of one
context entry. -/
lemma filterMap_replay (hp : String) (lines : List String) :
    List.filterMap (fun a =>
        match a with
        | Action.replay h v => some (h, v)
        | _ => none) (lines.map (fun line => Action.replay hp line))
      = lines.map (fun line => (hp, line)) := by
  induction lines with
  | nil => rfl
  | cons x t ih => simp [List.filterMap_cons, ih]

/-- The write calls issued by `__set_context` are, in order, one per
stored line of each context entry, addressed to the entry's handler
path. -/
lemma replayWrites_set_context (handlers : String → String) (ctx : Context) :
    replayWrites (set_context_actions handlers ctx)
      = ctx.flatMap (fun e => e.2.map (fun line => (handlers e.1, line))) := by
  unfold replayWrites set_context_actions
  induction ctx with
  | nil => rfl
  | cons e t ih =>
      simp only [List.flatMap_cons, List.filterMap_append, ih]
      rw [filterMap_replay]

/-- Flat-mapping after a map composes. -/
lemma flatMap_map_comp {α β γ : Type} (f : α → β) (g : β → List γ) :
    ∀ l : List α, (l.map f).flatMap g = l.flatMap (fun x => g (f x))
  | [] => rfl
  | x :: t => by simp [List.flatMap_cons, flatMap_map_comp f g t]

/-- C3: the context captured by `stop` holds exactly the stateful
handlers whose read returned 200 (the others are absent), each with the
line list read, and a subsequent start given that context (the probe
timing out) replays exactly those lines, in capture order, as write
calls to the corresponding handler paths. -/
theorem context_roundtrip (handlers : String → String) (sh : List String)
    (read : String → Nat × List String) (id : String) :
    capture_context handlers sh read
        = (sh.filter (fun h => (read (handlers h)).1 == 200)).map
            (fun h => (h, (read (handlers h)).2)) ∧
    replayWrites (init_lvnf id handlers (capture_context handlers sh read)
          ProbeResult.timeout)
        = (sh.filter (fun h => (read (handlers h)).1 == 200)).flatMap
            (fun h => ((read (handlers h)).2).map (fun line => (handlers h, line))) := by
  refine ⟨capture_context_eq handlers sh read, ?_⟩
  show replayWrites (set_context_actions handlers (capture_context handlers sh read)
      ++ [Action.attachIfaces, Action.sendCaps id, Action.startHeartbeat]) = _
  rw [show replayWrites (set_context_actions handlers (capture_context handlers sh read)
        ++ [Action.attachIfaces, Action.sendCaps id, Action.startHeartbeat])
      = replayWrites (set_context_actions handlers (capture_context handlers sh read))
        ++ replayWrites [Action.attachIfaces, Action.sendCaps id, Action.startHeartbeat]
    from List.filterMap_append _ _ _]
  rw [show replayWrites [Action.attachIfaces, Action.sendCaps id, Action.startHeartbeat]
      = [] from rfl]
  rw [List.append_nil, replayWrites_set_context, capture_context_eq handlers sh read,
    flatMap_map_comp]

/-- If one iteration of a monadic loop over the list fails, the whole
loop fails with no partial result. -/
lemma optMapM_none_of_mem {α β : Type} (f : α → Option β) :
    ∀ (l : List α) (x : α), x ∈ l → f x = none → optMapM f l = none
  | a :: t, x, hmem, hfx => by
      rcases List.mem_cons.1 hmem with h | h
      · subst h
        simp [optMapM, hfx]
      · have ih := optMapM_none_of_mem f t x h hfx
        cases hfa : f a with
        | none => simp [optMapM, hfa]
        | some y => simp [optMapM, hfa, ih]

/-- If the loop succeeds, projecting `g` out of the results agrees with
projecting `h` out of the inputs, whenever each successful iteration
relates the two. -/
lemma optMapM_some_fst {α β γ : Type} (f : α → Option β) (g : β → γ) (h : α → γ)
    (hfg : ∀ a b, f a = some b → g b = h a) :
    ∀ (l : List α) (ys : List β), optMapM f l = some ys → ys.map g = l.map h
  | [], ys, heq => by
      simp [optMapM] at heq
      subst heq
      rfl
  | a :: t, ys, heq => by
      cases hfa : f a with
      | none => simp [optMapM, hfa] at heq
      | some b =>
          cases hrec : optMapM f t with
          | none => simp [optMapM, hfa, hrec] at heq
          | some zs =>
              have ih := optMapM_some_fst f g h hfg t zs hrec
              simp [optMapM, hfa, hrec] at heq
              subst heq
              simp [ih, hfg a b hfa]

/-- Every element of a successful loop result comes from some input
element. -/
lemma optMapM_some_mem {α β : Type} (f : α → Option β) :
    ∀ (l : List α) (ys : List β), optMapM f l = some ys →
      ∀ y ∈ ys, ∃ a ∈ l, f a = some y
  | [], ys, heq => by
      simp [optMapM] at heq
      subst heq
      simp
  | a :: t, ys, heq => by
      cases hfa : f a with
      | none => simp [optMapM, hfa] at heq
      | some b =>
          cases hrec : optMapM f t with
          | none => simp [optMapM, hfa, hrec] at heq
          | some zs =>
              have ih := optMapM_some_mem f t zs hrec
              simp [optMapM, hfa, hrec] at heq
              subst heq
              intro y hy
              rcases List.mem_cons.1 hy with h | h
              · exact ⟨a, List.mem_cons_self a t, by rw [h]; exact hfa⟩
              · rcases ih y h with ⟨x, hx, hfx⟩
                exact ⟨x, List.mem_cons_of_mem a hx, hfx⟩

/-- A successful per-interface read yields exactly the four counters, in
the fixed order of `statsFields`. -/
lemma readPortStats_some_fields (counter : String → String → Option Nat)
    (iface : String) (vals : List (String × Nat))
    (h : readPortStats counter iface = some vals) :
    vals.map Prod.fst = statsFields := by
  have hmap := optMapM_some_fst (fun f => (counter iface f).map (fun v => (f, v)))
    Prod.fst id ?hfg statsFields vals h
  · simpa using hmap
  case hfg =>
    intro a b hab
    cases hca : counter iface a with
    | none => simp [hca] at hab
    | some v =>
        simp [hca] at hab
        rw [← hab]
        rfl

/-- A failing counter read for any field aborts the per-interface
read. -/
lemma readPortStats_none (counter : String → String → Option Nat) (iface : String)
    (f : String) (hf : f ∈ statsFields) (hc : counter iface f = none) :
    readPortStats counter iface = none :=
  optMapM_none_of_mem _ statsFields f hf (by simp [hc])

/-- C8: any successful `stats()` result maps exactly the interface names
of the currently configured ports, in order, each to exactly the four
counters `tx_packets, rx_packets, tx_bytes, rx_bytes`; if any counter
read for any configured port raises, the whole collection aborts with no
partial result; and with the port table cleared (detached ports) the
result has no entries. -/
theorem stats_spec (counter : String → String → Option Nat)
    (ports : List (Nat × Port)) :
    (∀ out, stats counter ports = some out →
        out.map Prod.fst = ports.map (fun p => p.2.iface) ∧
        ∀ e ∈ out, (e.2).map Prod.fst = statsFields) ∧
    ((∃ p ∈ ports, ∃ f ∈ statsFields, counter p.2.iface f = none) →
        stats counter ports = none) ∧
    stats counter ([] : List (Nat × Port)) = some [] := by
  refine ⟨?_, ?_, rfl⟩
  · intro out hout
    constructor
    · refine optMapM_some_fst _ Prod.fst (fun p => p.2.iface) ?_ ports out hout
      intro p e he
      cases hr : readPortStats counter p.2.iface with
      | none => simp [hr] at he
      | some vals =>
          simp [hr] at he
          rw [← he]
    · intro e he
      rcases optMapM_some_mem _ ports out hout e he with ⟨p, _, hpe⟩
      cases hr : readPortStats counter p.2.iface with
      | none => simp [hr] at hpe
      | some vals =>
          simp [hr] at hpe
          rw [← hpe]
          exact readPortStats_some_fields counter p.2.iface vals hr
  · rintro ⟨p, hp, f, hf, hc⟩
    exact optMapM_none_of_mem _ ports p hp
      (by simp [readPortStats_none counter p.2.iface f hf hc])

/-- Witness for `stats_spec`: on the one-port table of `vnf-br0-7-0`
with an all-succeeding counter oracle the keys are exactly that
interface, and with an oracle failing on `rx_bytes` the collection
aborts. -/
theorem stats_spec_witness :
    ([("vnf-br0-7-0",
        [("tx_packets", (5 : Nat)), ("rx_packets", 5), ("tx_bytes", 5),
         ("rx_bytes", 5)])].map Prod.fst
      = (initPorts "br0" 7 1).map (fun p => p.2.iface)) ∧
    stats counterBad (initPorts "br0" 7 1) = none := by
  constructor
  · exact ((stats_spec counterGood (initPorts "br0" 7 1)).1
      [("vnf-br0-7-0",
        [("tx_packets", (5 : Nat)), ("rx_packets", 5), ("tx_bytes", 5),
         ("rx_bytes", 5)])] (by decide)).1
  · exact (stats_spec counterBad (initPorts "br0" 7 1)).2.1 (by decide)

end LVNF
